import Mathlib

/-!
Verification of the restore-orchestration logic of `RPB.py`.

This file gives a shallow embedding of the parts of the script that the
specification describes: the backup-folder scanner and chain resolver
(`scan_backup_folder`), the per-step restore-command construction of
`restore_database_from_folder`, its background progress monitor, the
final state-verification loop of `restore_database_from_file`, and the
relocation (MOVE) clause generation of both restore entry points.
Remote SQL Server calls are modelled by their observable inputs and
outputs: header introspection becomes a function from file path to an
optional artifact, polled engine state becomes a list of observations,
and generated SQL text is modelled structurally, one constructor per
textual component the code can emit.
-/

namespace RPB

/-- Metadata of one backup file, as collected by `scan_backup_folder`
from a `RESTORE HEADERONLY` row plus the file path. `backupType` is the
numeric `BackupType` column (1 = full database backup, 2 = transaction
log backup, other values exist, e.g. 5 = differential);
`checkpointLSN` and `firstLSN` are the `CheckpointLSN` and `FirstLSN`
columns, modelled as naturals; `backupTypeDescription` is the
`BackupTypeDescription` text the code also branches on. -/
structure Artifact where
  filePath : String
  backupType : Nat
  checkpointLSN : Nat
  firstLSN : Nat
  backupTypeDescription : String
deriving DecidableEq, Repr

/-- The distinct failure outcomes of `scan_backup_folder` (the code
returns `(False, message)`; each constructor is one of the messages). -/
inductive ScanError where
  /-- Message "Backup folder not found" (line 58). -/
  | folderNotFound
  /-- Message "No backup files found in folder" (line 74). -/
  | noBackupFiles
  /-- Message "No valid backup files could be read" (line 115). -/
  | noValidHeaders
  /-- Message "No full backup found in folder" (line 125). -/
  | noFullBackup
deriving DecidableEq, Repr

/-- Ordering used for `full_backups.sort(key=CheckpointLSN, reverse=True)`:
descending by checkpoint LSN. -/
def fullOrder (a b : Artifact) : Prop := b.checkpointLSN ≤ a.checkpointLSN

instance : DecidableRel fullOrder := fun a b => Nat.decLe b.checkpointLSN a.checkpointLSN

instance : IsTotal Artifact fullOrder :=
  ⟨fun a b => Nat.le_total b.checkpointLSN a.checkpointLSN⟩

instance : IsTrans Artifact fullOrder :=
  ⟨fun _ _ _ h1 h2 => Nat.le_trans h2 h1⟩

/-- Ordering used for `log_backups.sort(key=FirstLSN)`: ascending by
first LSN. -/
def logOrder (a b : Artifact) : Prop := a.firstLSN ≤ b.firstLSN

instance : DecidableRel logOrder := fun a b => Nat.decLe a.firstLSN b.firstLSN

instance : IsTotal Artifact logOrder :=
  ⟨fun a b => Nat.le_total a.firstLSN b.firstLSN⟩

instance : IsTrans Artifact logOrder :=
  ⟨fun _ _ _ h1 h2 => Nat.le_trans h1 h2⟩

/-- Lines 114-134 of `scan_backup_folder`: partition the readable headers
into full and log backups, fail when nothing was readable or when no full
backup is present, otherwise sort the fulls by descending `CheckpointLSN`,
the logs by ascending `FirstLSN`, and return the chain
`[full_backups[0]] + log_backups`. Pythons stable `list.sort` is modelled
by the stable `List.insertionSort`; the code checks `if not full_backups`
before sorting, which is equivalent to the sorted list being empty. -/
def resolveChain (backupsInfo : List Artifact) : Except ScanError (List Artifact) :=
  if backupsInfo.isEmpty then .error .noValidHeaders
  else
    match List.insertionSort fullOrder (backupsInfo.filter fun b => b.backupType == 1) with
    | [] => .error .noFullBackup
    | best :: _ =>
      .ok (best :: List.insertionSort logOrder (backupsInfo.filter fun b => b.backupType == 2))

/-- Lines 57-117 of `scan_backup_folder`: the folder-existence check, the
candidate enumeration (`*.bak`, `*.trn`), and the header-reading loop.
`readHeader` models the `RESTORE HEADERONLY` introspection of one file:
`none` when the call raises, has no description, or returns no row — such
files are skipped with a logged warning (`continue`), so the surviving
artifacts are exactly the `filterMap` of the candidates. -/
def scanBackupFolder (folderExists : Bool) (candidateFiles : List String)
    (readHeader : String → Option Artifact) : Except ScanError (List Artifact) :=
  if !folderExists then .error .folderNotFound
  else if candidateFiles.isEmpty then .error .noBackupFiles
  else resolveChain (candidateFiles.filterMap readHeader)

/-- Concrete full backup used in witnesses: checkpoint LSN 10. -/
def fullA : Artifact := ⟨"full_a.bak", 1, 10, 0, "Database"⟩

/-- Concrete full backup with the larger checkpoint LSN 25. -/
def fullB : Artifact := ⟨"full_b.bak", 1, 25, 0, "Database"⟩

/-- Concrete log backup with first LSN 30. -/
def logC : Artifact := ⟨"log_c.trn", 2, 0, 30, "Transaction Log"⟩

/-- Concrete log backup with first LSN 40. -/
def logD : Artifact := ⟨"log_d.trn", 2, 0, 40, "Transaction Log"⟩

/-- Concrete log backup sharing first LSN 40 with `logD`. -/
def logE : Artifact := ⟨"log_e.trn", 2, 0, 40, "Transaction Log"⟩

/-- Concrete log backup whose first LSN 5 is below every checkpoint LSN
of the concrete fulls. -/
def logLow : Artifact := ⟨"log_low.trn", 2, 0, 5, "Transaction Log"⟩

/-- Helper: every element of a resolved chain is one of the scanned
artifacts. -/
theorem resolveChain_mem {backupsInfo chain : List Artifact}
    (h : resolveChain backupsInfo = .ok chain) :
    ∀ b ∈ chain, b ∈ backupsInfo := by
  unfold resolveChain at h
  split at h
  · exact absurd h (by simp)
  · split at h
    · exact absurd h (by simp)
    · rename_i best rest heq
      injection h with h2
      subst h2
      intro b hb
      rcases List.mem_cons.mp hb with hb | hb
      · rw [hb]
        have hmem : best ∈ List.insertionSort fullOrder
            (backupsInfo.filter fun b => b.backupType == 1) := by
          rw [heq]; exact List.mem_cons_self _ _
        have := (List.perm_insertionSort fullOrder _).mem_iff.mp hmem
        exact (List.mem_filter.mp this).1
      · have := (List.perm_insertionSort logOrder _).mem_iff.mp hb
        exact (List.mem_filter.mp this).1

/-- Helper: full description of a successful resolution — the head is a
Full artifact of maximal checkpoint LSN and the tail is the sorted list
of Log artifacts. -/
theorem resolveChain_full_spec (backupsInfo : List Artifact)
    (hfull : ∃ b ∈ backupsInfo, b.backupType = 1) :
    ∃ best logs,
      resolveChain backupsInfo = .ok (best :: logs) ∧
      best ∈ backupsInfo ∧ best.backupType = 1 ∧
      (∀ b ∈ backupsInfo, b.backupType = 1 → b.checkpointLSN ≤ best.checkpointLSN) ∧
      logs.Perm (backupsInfo.filter fun b => b.backupType == 2) ∧
      List.Sorted logOrder logs := by
  obtain ⟨w, hwmem, hwty⟩ := hfull
  have hne : backupsInfo.isEmpty = false := by
    cases backupsInfo with
    | nil => cases hwmem
    | cons a l => rfl
  have hwfil : w ∈ backupsInfo.filter fun b => b.backupType == 1 :=
    List.mem_filter.mpr ⟨hwmem, by simp [hwty]⟩
  have hsortmem : w ∈ List.insertionSort fullOrder
      (backupsInfo.filter fun b => b.backupType == 1) :=
    (List.perm_insertionSort fullOrder _).mem_iff.mpr hwfil
  cases hsorted : List.insertionSort fullOrder
      (backupsInfo.filter fun b => b.backupType == 1) with
  | nil => rw [hsorted] at hsortmem; cases hsortmem
  | cons best rest =>
    have hbestmem : best ∈ List.insertionSort fullOrder
        (backupsInfo.filter fun b => b.backupType == 1) := by
      rw [hsorted]; exact List.mem_cons_self _ _
    have hbestfil := List.mem_filter.mp
      ((List.perm_insertionSort fullOrder _).mem_iff.mp hbestmem)
    have hres : resolveChain backupsInfo
        = .ok (best :: List.insertionSort logOrder
            (backupsInfo.filter fun b => b.backupType == 2)) := by
      unfold resolveChain
      rw [hne, hsorted]
      rfl
    refine ⟨best, _, hres, hbestfil.1, by simpa using hbestfil.2, ?_, ?_, ?_⟩
    · intro b hbmem hbty
      have hbfil : b ∈ backupsInfo.filter fun b => b.backupType == 1 :=
        List.mem_filter.mpr ⟨hbmem, by simp [hbty]⟩
      have hbsort : b ∈ best :: rest := by
        rw [← hsorted]
        exact (List.perm_insertionSort fullOrder _).mem_iff.mpr hbfil
      rcases List.mem_cons.mp hbsort with hb | hb
      · subst hb; exact Nat.le_refl _
      · have hs := List.sorted_insertionSort fullOrder
          (backupsInfo.filter fun b => b.backupType == 1)
        rw [hsorted] at hs
        exact List.rel_of_sorted_cons hs b hb
    · exact List.perm_insertionSort logOrder _
    · exact List.sorted_insertionSort logOrder _

/-- C1 counterexample. The claim asserts the log artifacts of a resolved
chain are ordered strictly ascending by `FirstLSN`; with two log backups
sharing `FirstLSN = 40` the resolver still returns both, in
non-decreasing but not strictly ascending order, so the claim as stated
fails at this input. -/
theorem resolveChain_equal_firstLSN_not_strict :
    resolveChain [fullA, logD, logE] = .ok [fullA, logD, logE] ∧
    ¬ List.Pairwise (fun a b : Artifact => a.firstLSN < b.firstLSN) [logD, logE] := by
  refine ⟨rfl, ?_⟩
  intro h
  have := List.rel_of_pairwise_cons h (List.mem_cons_self _ _)
  simp [logD, logE] at this

/-- C1 (amended): for every artifact set containing at least one Full
backup, resolution returns a chain whose first element is a Full artifact
of maximum `CheckpointLSN` among all Full artifacts, followed by exactly
the Log artifacts ordered (non-strictly) ascending by `FirstLSN` —
strictly ascending only when the `FirstLSN` values are pairwise
distinct. -/
theorem resolveChain_orders_chain (backupsInfo : List Artifact)
    (hfull : ∃ b ∈ backupsInfo, b.backupType = 1) :
    ∃ best logs,
      resolveChain backupsInfo = .ok (best :: logs) ∧
      best ∈ backupsInfo ∧ best.backupType = 1 ∧
      (∀ b ∈ backupsInfo, b.backupType = 1 → b.checkpointLSN ≤ best.checkpointLSN) ∧
      logs.Perm (backupsInfo.filter fun b => b.backupType == 2) ∧
      List.Sorted logOrder logs :=
  resolveChain_full_spec backupsInfo hfull

/-- C1 witness: the amended theorem applied to a concrete artifact set
with two fulls (checkpoints 10 and 25) and two logs (first LSNs 40, 30). -/
theorem resolveChain_orders_chain_witness :
    (∃ b ∈ [fullA, fullB, logD, logC], b.backupType = 1) ∧
    ∃ best logs,
      resolveChain [fullA, fullB, logD, logC] = .ok (best :: logs) ∧
      best ∈ [fullA, fullB, logD, logC] ∧ best.backupType = 1 ∧
      (∀ b ∈ [fullA, fullB, logD, logC], b.backupType = 1 →
        b.checkpointLSN ≤ best.checkpointLSN) ∧
      logs.Perm (List.filter (fun b => b.backupType == 2) [fullA, fullB, logD, logC]) ∧
      List.Sorted logOrder logs :=
  ⟨⟨fullA, by decide⟩, resolveChain_orders_chain _ ⟨fullA, by decide⟩⟩

/-- C2 counterexample. The claim asserts that every artifact set with
zero Full artifacts fails with the no-full-backup error; the empty set
contains zero Full artifacts, yet the code fails earlier with the
all-headers-unreadable error ("No valid backup files could be read"),
which is a different error. -/
theorem resolveChain_empty_error :
    resolveChain ([] : List Artifact) = .error .noValidHeaders ∧
    ScanError.noValidHeaders ≠ ScanError.noFullBackup :=
  ⟨rfl, by decide⟩

/-- C2 (amended): for every non-empty artifact set whose readable headers
contain zero Full-kind artifacts, resolution fails with the
no-full-backup error, regardless of how many Log artifacts are present;
the empty set instead yields the all-headers-unreadable error. -/
theorem resolveChain_noFullBackup_of_nonempty (backupsInfo : List Artifact)
    (hne : backupsInfo ≠ [])
    (hnofull : ∀ b ∈ backupsInfo, b.backupType ≠ 1) :
    resolveChain backupsInfo = .error .noFullBackup := by
  have hempty : backupsInfo.isEmpty = false := by
    cases backupsInfo with
    | nil => exact absurd rfl hne
    | cons a l => rfl
  have hfil : (backupsInfo.filter fun b => b.backupType == 1) = [] := by
    rw [List.filter_eq_nil_iff]
    intro b hb
    simpa using hnofull b hb
  unfold resolveChain
  rw [hempty, hfil]
  rfl

/-- C2 witness: the amended theorem applied to a one-element set holding
a single log backup. -/
theorem resolveChain_noFullBackup_witness :
    (([logC] : List Artifact) ≠ [] ∧ ∀ b ∈ [logC], b.backupType ≠ 1) ∧
    resolveChain [logC] = .error .noFullBackup :=
  ⟨⟨by decide, by decide⟩,
   resolveChain_noFullBackup_of_nonempty [logC] (by decide) (by decide)⟩

/-- C3 counterexample. The claim asserts every resolved chain satisfies
the boundary invariant (Full checkpoint LSN at most every Log first LSN)
because the resolver rejects inputs violating it; with a full backup of
checkpoint 10 and a log backup of first LSN 5, resolution succeeds and
returns a chain that violates the invariant — the code performs no
boundary check at all. -/
theorem resolveChain_no_boundary_check :
    resolveChain [fullA, logLow] = .ok [fullA, logLow] ∧
    ¬ fullA.checkpointLSN ≤ logLow.firstLSN :=
  ⟨rfl, by decide⟩

/-- C3 (amended): resolution never rejects an input on chain-continuity
grounds; it succeeds exactly when at least one Full artifact is present,
whether or not the Full-to-Log boundary invariant holds (the
counterexample exhibits a returned chain violating it). -/
theorem resolveChain_ok_iff_full_present (backupsInfo : List Artifact) :
    (∃ chain, resolveChain backupsInfo = .ok chain) ↔
    ∃ b ∈ backupsInfo, b.backupType = 1 := by
  constructor
  · rintro ⟨chain, hchain⟩
    unfold resolveChain at hchain
    split at hchain
    · exact absurd hchain (by simp)
    · split at hchain
      · exact absurd hchain (by simp)
      · rename_i best rest heq
        have hmem : best ∈ List.insertionSort fullOrder
            (backupsInfo.filter fun b => b.backupType == 1) := by
          rw [heq]; exact List.mem_cons_self _ _
        have hfil := (List.perm_insertionSort fullOrder _).mem_iff.mp hmem
        refine ⟨best, (List.mem_filter.mp hfil).1, ?_⟩
        have := (List.mem_filter.mp hfil).2
        simpa using this
  · intro hfull
    obtain ⟨best, logs, hok, _⟩ := resolveChain_full_spec backupsInfo hfull
    exact ⟨best :: logs, hok⟩

/-- Is the first character list a prefix of the second. -/
def charsPrefix : List Char → List Char → Bool
  | [], _ => true
  | _ :: _, [] => false
  | a :: as, b :: bs => a == b && charsPrefix as bs

/-- Does the character list contain `needle` as a contiguous run. -/
def containsFrom (needle : List Char) : List Char → Bool
  | [] => needle.isEmpty
  | c :: cs => charsPrefix needle (c :: cs) || containsFrom needle cs

/-- Pythons substring test `needle in hay` on strings. -/
def strContains (hay needle : String) : Bool :=
  containsFrom needle.toList hay.toList

/-- One row of `RESTORE FILELISTONLY`: the code reads `file_info[0]`
(logical name), `file_info[1]` (physical name) and `file_info[2]` (the
`Type` column, the letter D for data files and L for log files). -/
structure FileEntry where
  logicalName : String
  physicalName : String
  fileType : String
deriving DecidableEq, Repr

/-- One WITH-clause option of a generated restore command. The Python
code assembles these as text fragments; they are modelled structurally,
one constructor per option the code can emit (`REPLACE`, `NORECOVERY`,
`RECOVERY`, `STATS=k`). -/
inductive WithOpt where
  | replace
  | norecovery
  | recovery
  | stats (interval : Nat)
deriving DecidableEq, Repr

/-- A restore command issued by the loop of `restore_database_from_folder`:
either a `RESTORE DATABASE` (with its MOVE clauses as pairs of logical
name and target path) or a `RESTORE LOG`. -/
inductive StepCmd where
  | restoreDatabase (db : String) (disk : String)
      (moves : List (String × String)) (opts : List WithOpt)
  | restoreLog (db : String) (disk : String) (opts : List WithOpt)
deriving DecidableEq, Repr

/-- The WITH options carried by a generated command. -/
def StepCmd.withOpts : StepCmd → List WithOpt
  | .restoreDatabase _ _ _ o => o
  | .restoreLog _ _ o => o

/-- Windows `os.path.join` as the script uses it (both arguments are
plain drive-letter paths and names, so joining is separator plus
concatenation). -/
def joinPath (dir name : String) : String := dir ++ "\\" ++ name

/-- Lines 327-333 of `restore_database_from_folder`: relocation target of
one logical file of the full backup. Data files (`Type` equals D) go to
`restore_path\<database>_.mdf` and every other file to
`restore_path\<database>_.ldf` — the f-string `database`, underscore,
`ext` puts the underscore before the extension, and the target does not
depend on the logical name. -/
def folderMoveTarget (restorePath database : String) (f : FileEntry) : String :=
  joinPath restorePath (database ++ "_" ++ (if f.fileType == "D" then ".mdf" else ".ldf"))

/-- Lines 313-378 of `restore_database_from_folder`: build the restore
command of the chain step at position `idx` out of `n`. Full backups
(type 1, or a description containing "Database") become
`RESTORE DATABASE` with MOVE clauses when a restore path is given,
`REPLACE` only when overwrite is requested on step 0 and `NORECOVERY`
only when the chain has more than one step; log backups (type 2, or a
description containing "Transaction Log") become `RESTORE LOG` with
`NORECOVERY` on every step but the last, which gets `RECOVERY`. Other
backup types yield no command (the loop logs a warning and continues).
`fileList` models the `RESTORE FILELISTONLY` introspection. -/
def buildStepCommand (database : String) (restorePath : Option String)
    (overwrite : Bool) (statsInterval : Nat) (fileList : String → List FileEntry)
    (n idx : Nat) (b : Artifact) : Option StepCmd :=
  if b.backupType == 1 || strContains b.backupTypeDescription "Database" then
    let files := fileList b.filePath
    let moves := match restorePath with
      | some rp => files.map fun f => (f.logicalName, folderMoveTarget rp database f)
      | none => []
    if moves.isEmpty then
      some (.restoreDatabase database b.filePath []
        ((if overwrite && idx == 0 then [WithOpt.replace] else []) ++
         (if n > 1 then [WithOpt.norecovery] else []) ++
         [WithOpt.stats statsInterval]))
    else
      some (.restoreDatabase database b.filePath moves
        ((if overwrite && idx == 0 then [WithOpt.replace] else []) ++
         [WithOpt.stats statsInterval] ++
         (if n > 1 then [WithOpt.norecovery] else [])))
  else if b.backupType == 2 || strContains b.backupTypeDescription "Transaction Log" then
    some (.restoreLog database b.filePath
      ((if idx < n - 1 then [WithOpt.norecovery] else [WithOpt.recovery]) ++
       [WithOpt.stats statsInterval]))
  else none

/-- The restore loop of lines 297-419: one command per chain entry in
order, keeping the enumerate index `idx` and the total chain length `n`
(the code uses `len(backups_info)` and `idx` even across skipped
entries). -/
def driverLoop (database : String) (restorePath : Option String) (overwrite : Bool)
    (statsInterval : Nat) (fileList : String → List FileEntry) (n : Nat) :
    Nat → List Artifact → List StepCmd
  | _, [] => []
  | idx, b :: rest =>
    match buildStepCommand database restorePath overwrite statsInterval fileList n idx b with
    | some c =>
      c :: driverLoop database restorePath overwrite statsInterval fileList n (idx + 1) rest
    | none => driverLoop database restorePath overwrite statsInterval fileList n (idx + 1) rest

/-- The full sequence of restore commands the driver issues for a chain. -/
def driverCommands (database : String) (restorePath : Option String) (overwrite : Bool)
    (statsInterval : Nat) (fileList : String → List FileEntry)
    (chain : List Artifact) : List StepCmd :=
  driverLoop database restorePath overwrite statsInterval fileList chain.length 0 chain

/-- The recovery-state option a generated command carries, if any: the
code never emits both `NORECOVERY` and `RECOVERY` on one command. -/
def recFlag (c : StepCmd) : Option WithOpt :=
  if WithOpt.norecovery ∈ c.withOpts then some .norecovery
  else if WithOpt.recovery ∈ c.withOpts then some .recovery
  else none

/-- Helper: membership in a conditional singleton option list. -/
theorem mem_ite_single {p : Prop} [Decidable p] (w x : WithOpt) :
    w ∈ (if p then [x] else []) ↔ w = x ∧ p := by
  split_ifs with h <;> simp [h]

/-- Helper: shape of the command generated for a full backup at step
`idx` of `n`: it is a `RESTORE DATABASE` whose options carry `REPLACE`
exactly when overwrite is requested on step 0, `NORECOVERY` exactly when
the chain has more than one step, and never `RECOVERY`. -/
theorem buildStep_full (database : String) (restorePath : Option String)
    (overwrite : Bool) (statsInterval : Nat) (fileList : String → List FileEntry)
    (n idx : Nat) (b : Artifact) (hb : b.backupType = 1) :
    ∃ moves opts,
      buildStepCommand database restorePath overwrite statsInterval fileList n idx b
        = some (.restoreDatabase database b.filePath moves opts) ∧
      (WithOpt.replace ∈ opts ↔ (overwrite && idx == 0) = true) ∧
      (WithOpt.norecovery ∈ opts ↔ n > 1) ∧
      WithOpt.recovery ∉ opts := by
  unfold buildStepCommand
  rw [hb]
  cases restorePath with
  | none =>
    refine ⟨_, _, rfl, ?_, ?_, ?_⟩ <;> simp [mem_ite_single, List.mem_append]
  | some rp =>
    cases hfl : fileList b.filePath with
    | nil => refine ⟨_, _, rfl, ?_, ?_, ?_⟩ <;> simp [mem_ite_single, List.mem_append]
    | cons f fs => refine ⟨_, _, rfl, ?_, ?_, ?_⟩ <;> simp [mem_ite_single, List.mem_append]

/-- Helper: the command generated for a log backup at step `idx` of `n`
is a `RESTORE LOG` with `NORECOVERY` before the last step and `RECOVERY`
on the last step. -/
theorem buildStep_log (database : String) (restorePath : Option String)
    (overwrite : Bool) (statsInterval : Nat) (fileList : String → List FileEntry)
    (n idx : Nat) (b : Artifact) (hb : b.backupType = 2)
    (hdesc : strContains b.backupTypeDescription "Database" = false) :
    buildStepCommand database restorePath overwrite statsInterval fileList n idx b
      = some (.restoreLog database b.filePath
          ((if idx < n - 1 then [WithOpt.norecovery] else [WithOpt.recovery]) ++
           [WithOpt.stats statsInterval])) := by
  unfold buildStepCommand
  rw [hb, hdesc]
  rfl

/-- Helper: the recovery flag of a log-step command. -/
theorem recFlag_log (db disk : String) (k n idx : Nat) :
    recFlag (.restoreLog db disk
        ((if idx < n - 1 then [WithOpt.norecovery] else [WithOpt.recovery]) ++
         [WithOpt.stats k]))
      = if idx < n - 1 then some WithOpt.norecovery else some WithOpt.recovery := by
  by_cases h : idx < n - 1 <;> simp [recFlag, StepCmd.withOpts, h]

/-- Helper: the recovery flag of a full-step command. -/
theorem recFlag_full (n : Nat) (db disk : String) (moves : List (String × String))
    (opts : List WithOpt) (hno : WithOpt.norecovery ∈ opts ↔ n > 1)
    (hrec : WithOpt.recovery ∉ opts) :
    recFlag (.restoreDatabase db disk moves opts)
      = if n > 1 then some WithOpt.norecovery else none := by
  by_cases h : n > 1
  · simp [recFlag, StepCmd.withOpts, hno.mpr h, h]
  · have hnomem : WithOpt.norecovery ∉ opts := fun hm => h (hno.mp hm)
    simp [recFlag, StepCmd.withOpts, hnomem, hrec, h]

/-- Helper: recovery flags of the log suffix of the loop — `NORECOVERY`
on every log step but the last, `RECOVERY` on the last. -/
theorem driverLoop_logs_recFlags (database : String) (restorePath : Option String)
    (overwrite : Bool) (statsInterval : Nat) (fileList : String → List FileEntry)
    (n : Nat) :
    ∀ (logs : List Artifact),
      (∀ l ∈ logs, l.backupType = 2 ∧
        strContains l.backupTypeDescription "Database" = false) →
      ∀ idx, idx + logs.length = n → logs ≠ [] →
      (driverLoop database restorePath overwrite statsInterval fileList n idx logs).map recFlag
        = List.replicate (logs.length - 1) (some WithOpt.norecovery) ++
          [some WithOpt.recovery] := by
  intro logs
  induction logs with
  | nil => intro _ idx _ hne; exact absurd rfl hne
  | cons l rest ih =>
    intro hlogs idx hlen _
    have hl := hlogs l (List.mem_cons_self _ _)
    simp only [driverLoop,
      buildStep_log database restorePath overwrite statsInterval fileList n idx l hl.1 hl.2]
    cases rest with
    | nil =>
      have hnot : ¬ idx < n - 1 := by
        simp only [List.length_cons, List.length_nil] at hlen
        omega
      simp [driverLoop, hnot, recFlag, StepCmd.withOpts]
    | cons r rs =>
      have hlt : idx < n - 1 := by
        simp only [List.length_cons] at hlen
        omega
      have htail := ih (fun x hx => hlogs x (List.mem_cons_of_mem _ hx)) (idx + 1)
        (by simp only [List.length_cons] at hlen ⊢; omega) (by simp)
      have hhead : recFlag (StepCmd.restoreLog database l.filePath
          ((if idx < n - 1 then [WithOpt.norecovery] else [WithOpt.recovery]) ++
           [WithOpt.stats statsInterval])) = some WithOpt.norecovery := by
        rw [recFlag_log, if_pos hlt]
      simp only [List.map_cons, htail, hhead]
      rw [show (l :: r :: rs).length - 1 = ((r :: rs).length - 1) + 1 by simp]
      simp [List.replicate_succ]

/-- Helper: no log-step command ever carries `REPLACE`. -/
theorem driverLoop_logs_noReplace (database : String) (restorePath : Option String)
    (overwrite : Bool) (statsInterval : Nat) (fileList : String → List FileEntry)
    (n : Nat) :
    ∀ (logs : List Artifact),
      (∀ l ∈ logs, l.backupType = 2 ∧
        strContains l.backupTypeDescription "Database" = false) →
      ∀ idx, ∀ c ∈ driverLoop database restorePath overwrite statsInterval fileList n idx logs,
        WithOpt.replace ∉ c.withOpts := by
  intro logs
  induction logs with
  | nil => intro _ idx c hc; simp [driverLoop] at hc
  | cons l rest ih =>
    intro hlogs idx c hc
    have hl := hlogs l (List.mem_cons_self _ _)
    simp only [driverLoop,
      buildStep_log database restorePath overwrite statsInterval fileList n idx l hl.1 hl.2] at hc
    rcases List.mem_cons.mp hc with hc | hc
    · subst hc
      by_cases h : idx < n - 1 <;> simp [StepCmd.withOpts, h]
    · exact ih (fun x hx => hlogs x (List.mem_cons_of_mem _ hx)) (idx + 1) c hc

/-- C4 counterexample. The claim asserts that for a chain of length 1 the
single Full restore command carries the Recovery flag; the code only ever
appends `NORECOVERY` (when more steps follow) to a full-restore command
and never `RECOVERY`, so the single command of a one-element chain
carries neither flag (SQL Server then applies its default recovery). -/
theorem driver_single_full_no_recovery_flag :
    driverCommands "DB" none true 10 (fun _ => []) [fullA]
      = [StepCmd.restoreDatabase "DB" "full_a.bak" [] [WithOpt.replace, WithOpt.stats 10]] ∧
    WithOpt.recovery ∉ [WithOpt.replace, WithOpt.stats 10] :=
  ⟨rfl, by decide⟩

/-- C4 (amended): for every chain of one Full backup followed by log
backups, the driver emits `NORECOVERY` on every step except the last and
`RECOVERY` on the last step whenever the chain has length at least 2; for
a chain of length 1 the single Full step carries neither flag (the
engine default, which is recovery, applies). -/
theorem driver_recovery_flags (database : String) (restorePath : Option String)
    (overwrite : Bool) (statsInterval : Nat) (fileList : String → List FileEntry)
    (full : Artifact) (logs : List Artifact)
    (hfull : full.backupType = 1)
    (hlogs : ∀ l ∈ logs, l.backupType = 2 ∧
      strContains l.backupTypeDescription "Database" = false) :
    (driverCommands database restorePath overwrite statsInterval fileList
        (full :: logs)).map recFlag
      = if logs.isEmpty then [none]
        else List.replicate logs.length (some WithOpt.norecovery) ++
          [some WithOpt.recovery] := by
  obtain ⟨moves, opts, hcmd, hrep, hno, hrec⟩ :=
    buildStep_full database restorePath overwrite statsInterval fileList
      (full :: logs).length 0 full hfull
  simp only [driverCommands, driverLoop, hcmd]
  cases logs with
  | nil =>
    rw [List.map_cons, recFlag_full (full :: ([] : List Artifact)).length _ _ _ _ hno hrec]
    simp [driverLoop]
  | cons l rest =>
    have hgt : (full :: l :: rest).length > 1 := by simp
    rw [List.map_cons, recFlag_full (full :: l :: rest).length _ _ _ _ hno hrec, if_pos hgt]
    have htail := driverLoop_logs_recFlags database restorePath overwrite statsInterval
      fileList (full :: l :: rest).length (l :: rest) hlogs 1
      (by simp only [List.length_cons]; omega) (by simp)
    rw [htail]
    rw [show (l :: rest).length = rest.length + 1 by simp]
    simp [List.replicate_succ]

/-- C4 witness: the amended theorem applied to a chain of one full and
two log backups. -/
theorem driver_recovery_flags_witness :
    (fullA.backupType = 1 ∧ ∀ l ∈ [logC, logD],
        l.backupType = 2 ∧ strContains l.backupTypeDescription "Database" = false) ∧
    (driverCommands "DB" none true 10 (fun _ => []) (fullA :: [logC, logD])).map recFlag
      = if ([logC, logD] : List Artifact).isEmpty then [none]
        else List.replicate ([logC, logD] : List Artifact).length (some WithOpt.norecovery) ++
          [some WithOpt.recovery] :=
  ⟨⟨by decide, by decide⟩,
   driver_recovery_flags "DB" none true 10 (fun _ => []) fullA [logC, logD]
     (by decide) (by decide)⟩

/-- C5: for every chain of one Full backup followed by log backups, the
`REPLACE` (overwrite) option appears in the generated command of step 0
exactly when overwrite is requested, and never appears in the command of
any later step. -/
theorem driver_replace_only_first_step (database : String) (restorePath : Option String)
    (overwrite : Bool) (statsInterval : Nat) (fileList : String → List FileEntry)
    (full : Artifact) (logs : List Artifact)
    (hfull : full.backupType = 1)
    (hlogs : ∀ l ∈ logs, l.backupType = 2 ∧
      strContains l.backupTypeDescription "Database" = false) :
    ∃ c0 rest,
      driverCommands database restorePath overwrite statsInterval fileList (full :: logs)
        = c0 :: rest ∧
      (WithOpt.replace ∈ c0.withOpts ↔ overwrite = true) ∧
      ∀ c ∈ rest, WithOpt.replace ∉ c.withOpts := by
  obtain ⟨moves, opts, hcmd, hrep, hno, hrec⟩ :=
    buildStep_full database restorePath overwrite statsInterval fileList
      (full :: logs).length 0 full hfull
  refine ⟨StepCmd.restoreDatabase database full.filePath moves opts,
    driverLoop database restorePath overwrite statsInterval fileList
      (full :: logs).length 1 logs, ?_, ?_, ?_⟩
  · simp only [driverCommands, driverLoop, hcmd]
  · simp only [StepCmd.withOpts]
    rw [hrep]
    simp
  · exact driverLoop_logs_noReplace database restorePath overwrite statsInterval fileList
      (full :: logs).length logs hlogs 1

/-- C5 witness: the theorem applied to a chain of one full and one log
backup with overwrite requested. -/
theorem driver_replace_only_first_step_witness :
    (fullA.backupType = 1 ∧ ∀ l ∈ [logC],
        l.backupType = 2 ∧ strContains l.backupTypeDescription "Database" = false) ∧
    ∃ c0 rest,
      driverCommands "DB" none true 10 (fun _ => []) (fullA :: [logC]) = c0 :: rest ∧
      (WithOpt.replace ∈ c0.withOpts ↔ true = true) ∧
      ∀ c ∈ rest, WithOpt.replace ∉ c.withOpts :=
  ⟨⟨by decide, by decide⟩,
   driver_replace_only_first_step "DB" none true 10 (fun _ => []) fullA [logC]
     (by decide) (by decide)⟩

/-- Helper: the all-headers-unreadable error occurs exactly on the empty
artifact list. -/
theorem resolveChain_noValid_iff (l : List Artifact) :
    resolveChain l = .error .noValidHeaders ↔ l = [] := by
  constructor
  · intro h
    cases l with
    | nil => rfl
    | cons a t =>
      have heq : resolveChain (a :: t)
          = match List.insertionSort fullOrder
              ((a :: t).filter fun b => b.backupType == 1) with
            | [] => Except.error ScanError.noFullBackup
            | best :: _ =>
              Except.ok (best :: List.insertionSort logOrder
                ((a :: t).filter fun b => b.backupType == 2)) := rfl
      rw [heq] at h
      split at h <;> simp_all
  · intro h
    subst h
    rfl

/-- C6: a scan over a non-empty candidate list proceeds on exactly the
artifacts whose headers were readable — failing introspections are
skipped, not fatal; the all-headers-unreadable error occurs precisely
when every candidate failed introspection; and every artifact of a
returned chain is one of the successfully read ones. -/
theorem scan_skips_unreadable_headers (candidateFiles : List String)
    (readHeader : String → Option Artifact) (hne : candidateFiles ≠ []) :
    scanBackupFolder true candidateFiles readHeader
      = resolveChain (candidateFiles.filterMap readHeader) ∧
    (scanBackupFolder true candidateFiles readHeader = .error .noValidHeaders ↔
      candidateFiles.filterMap readHeader = []) ∧
    (∀ chain, scanBackupFolder true candidateFiles readHeader = .ok chain →
      ∀ b ∈ chain, b ∈ candidateFiles.filterMap readHeader) := by
  have hemp : candidateFiles.isEmpty = false := by
    cases candidateFiles with
    | nil => exact absurd rfl hne
    | cons a l => rfl
  have hscan : scanBackupFolder true candidateFiles readHeader
      = resolveChain (candidateFiles.filterMap readHeader) := by
    unfold scanBackupFolder
    rw [hemp]
    rfl
  refine ⟨hscan, ?_, ?_⟩
  · rw [hscan]
    exact resolveChain_noValid_iff _
  · intro chain hchain
    rw [hscan] at hchain
    exact resolveChain_mem hchain

/-- Concrete header introspection used in witnesses: exactly one of the
candidate files has a readable header. -/
def readHeaderW : String → Option Artifact :=
  fun p => if p = "full_a.bak" then some fullA else none

/-- C6 witness: the theorem applied to a two-candidate folder in which
one header read fails and one succeeds. -/
theorem scan_skips_unreadable_headers_witness :
    (["full_a.bak", "corrupt.bak"] : List String) ≠ [] ∧
    (scanBackupFolder true ["full_a.bak", "corrupt.bak"] readHeaderW
      = resolveChain ((["full_a.bak", "corrupt.bak"] : List String).filterMap readHeaderW) ∧
    (scanBackupFolder true ["full_a.bak", "corrupt.bak"] readHeaderW
        = .error .noValidHeaders ↔
      (["full_a.bak", "corrupt.bak"] : List String).filterMap readHeaderW = []) ∧
    (∀ chain, scanBackupFolder true ["full_a.bak", "corrupt.bak"] readHeaderW = .ok chain →
      ∀ b ∈ chain, b ∈ (["full_a.bak", "corrupt.bak"] : List String).filterMap readHeaderW)) :=
  ⟨by decide,
   scan_skips_unreadable_headers ["full_a.bak", "corrupt.bak"] readHeaderW (by decide)⟩

/-- The outcome of one `restore_database_from_folder` call in this model:
overall success, the scan failure if any, and the restore commands issued
against the server in order. Failures of the remote restore calls
themselves are outside the model; `executed` lists the commands the loop
issues when each remote call returns. -/
structure FolderRestoreOutcome where
  success : Bool
  scanFailure : Option ScanError
  executed : List StepCmd
deriving DecidableEq, Repr

/-- Lines 281-419 of `restore_database_from_folder`: the folder is
scanned first (line 282) and a scan failure is returned immediately
(lines 283-284), before the restoring connection is opened at line 293
and before any restore command is built or executed; otherwise the loop
issues the generated command of every chain step in order. -/
def restoreDatabaseFromFolder (database : String) (restorePath : Option String)
    (overwrite : Bool) (statsInterval : Nat) (fileList : String → List FileEntry)
    (folderExists : Bool) (candidateFiles : List String)
    (readHeader : String → Option Artifact) : FolderRestoreOutcome :=
  match scanBackupFolder folderExists candidateFiles readHeader with
  | .error e => ⟨false, some e, []⟩
  | .ok chain =>
    ⟨true, none,
      driverCommands database restorePath overwrite statsInterval fileList chain⟩

/-- C8: whenever the scan (including chain resolution) fails — in
particular over a directory containing zero backup files — the restore
operation returns that discovery failure with an empty command trace: no
restore command is issued against the target. -/
theorem restore_no_commands_on_scan_failure (database : String)
    (restorePath : Option String) (overwrite : Bool) (statsInterval : Nat)
    (fileList : String → List FileEntry) (folderExists : Bool)
    (candidateFiles : List String) (readHeader : String → Option Artifact)
    (e : ScanError)
    (hscan : scanBackupFolder folderExists candidateFiles readHeader = .error e) :
    restoreDatabaseFromFolder database restorePath overwrite statsInterval fileList
      folderExists candidateFiles readHeader = ⟨false, some e, []⟩ := by
  unfold restoreDatabaseFromFolder
  rw [hscan]

/-- C8 witness: a restore request over an existing directory with zero
backup files fails with the no-backup-files error and issues no
command. -/
theorem restore_no_commands_witness :
    scanBackupFolder true [] readHeaderW = .error .noBackupFiles ∧
    restoreDatabaseFromFolder "DB" none true 10 (fun _ => []) true [] readHeaderW
      = ⟨false, some .noBackupFiles, []⟩ :=
  ⟨rfl,
   restore_no_commands_on_scan_failure "DB" none true 10 (fun _ => []) true []
     readHeaderW .noBackupFiles rfl⟩

/-- Lines 231-263 of `progress_monitor`: the loop state is the last
reported percentage, initially 0. Each poll observes the percent
complete of the running restore command of the target, or `none` when no
such row is visible (also covering a failed poll, which is swallowed).
An event (callback plus log line) fires only when the observed
percentage has advanced by at least `stats_interval` over the last
reported one, and then becomes the new last reported percentage.
Percentages are modelled as rationals (the engine reports a float). -/
def monitorRun (statsInterval : ℚ) : ℚ → List (Option ℚ) → List ℚ
  | _, [] => []
  | last, obs :: rest =>
    match obs with
    | none => monitorRun statsInterval last rest
    | some p =>
      if last + statsInterval ≤ p then p :: monitorRun statsInterval p rest
      else monitorRun statsInterval last rest

/-- The percentages emitted over a whole monitoring run of
`progress_monitor`, starting from `last_percent = 0`. -/
def progressMonitor (statsInterval : ℚ) (observations : List (Option ℚ)) : List ℚ :=
  monitorRun statsInterval 0 observations

/-- Helper: each emitted percentage exceeds the previous reported one by
at least the configured interval. -/
theorem monitorRun_chain (k : ℚ) :
    ∀ (obs : List (Option ℚ)) (last : ℚ),
      List.Chain (fun a b => a + k ≤ b) last (monitorRun k last obs) := by
  intro obs
  induction obs with
  | nil => intro last; exact List.Chain.nil
  | cons o rest ih =>
    intro last
    cases o with
    | none => simpa [monitorRun] using ih last
    | some p =>
      by_cases h : last + k ≤ p
      · simp only [monitorRun, if_pos h]
        exact List.Chain.cons h (ih p)
      · simp only [monitorRun, if_neg h]
        exact ih last

/-- C7: over any sequence of polled percentages, the emitted percentages
advance by at least the configured (non-negative) interval at every
emission — including the first, measured against the initial 0 — so no
event is ever emitted for a smaller delta, and the emitted sequence is
monotonically non-decreasing. -/
theorem monitor_progress_monotone (statsInterval : ℚ)
    (observations : List (Option ℚ)) (hk : 0 ≤ statsInterval) :
    List.Chain (fun a b => a + statsInterval ≤ b) 0
      (progressMonitor statsInterval observations) ∧
    List.Sorted (· ≤ ·) (progressMonitor statsInterval observations) := by
  have hchain := monitorRun_chain statsInterval observations 0
  refine ⟨hchain, ?_⟩
  haveI : IsTrans ℚ (fun a b => a + statsInterval ≤ b) :=
    ⟨fun a b c h1 h2 => by linarith⟩
  have hc2 : List.Chain' (fun a b : ℚ => a + statsInterval ≤ b)
      (0 :: progressMonitor statsInterval observations) := hchain
  have hpw := List.chain'_iff_pairwise.mp hc2
  exact (hpw.of_cons).imp fun h => by linarith

/-- C7 witness: the theorem applied to interval 10 and a concrete
observation sequence containing a below-threshold poll and an empty
poll. -/
theorem monitor_progress_monotone_witness :
    (0 : ℚ) ≤ 10 ∧
    (List.Chain (fun a b => a + 10 ≤ b) 0
        (progressMonitor 10 [some 4, some 12, none, some 15, some 30]) ∧
      List.Sorted (· ≤ ·)
        (progressMonitor 10 [some 4, some 12, none, some 15, some 30])) :=
  ⟨by norm_num, monitor_progress_monotone 10 _ (by norm_num)⟩

/-- One polled value of the `state_desc` column in the verification loop
of `restore_database_from_file` (lines 636-682); `absent` models a
missing row in `sys.databases`. -/
inductive DbState where
  | online
  | restoring
  | other (desc : String)
  | absent
deriving DecidableEq, Repr

/-- The terminal outcomes of the verification loop. -/
inductive VerifyResult where
  /-- Database reached ONLINE. -/
  | ok
  /-- Message "Database stuck in RESTORING state" (line 665). -/
  | stuckRestoring
  /-- Message "Database in unexpected state" (line 669). -/
  | unexpected (desc : String)
  /-- Message "Database not found after restore" (line 677). -/
  | notFoundAfterRestore
  /-- Message "Failed to verify database state within timeout"
  (line 685, reachable only with zero retries in this model). -/
  | verifyTimeout
deriving DecidableEq, Repr

/-- The verification loop of lines 636-682: `i` is the retry counter and
the list holds one polled state per remaining retry. ONLINE returns
success; RESTORING issues the explicit `RESTORE DATABASE ... WITH
RECOVERY` nudge only when `i == 0` and keeps polling, failing with
stuck-in-restoring when the retries are exhausted; any other named state
fails immediately; a missing row retries, failing with not-found at the
bound. The returned number counts the recovery nudges issued (the code
wraps the nudge in try/except; issuing is counted, not its success).
Poll exceptions are not modelled. -/
def verifyFrom : Nat → List DbState → Nat → VerifyResult × Nat
  | _, [], nudges => (.verifyTimeout, nudges)
  | i, st :: rest, nudges =>
    match st with
    | .online => (.ok, nudges)
    | .restoring =>
      match rest with
      | [] => (.stuckRestoring, if i == 0 then nudges + 1 else nudges)
      | _ :: _ => verifyFrom (i + 1) rest (if i == 0 then nudges + 1 else nudges)
    | .other d => (.unexpected d, nudges)
    | .absent =>
      match rest with
      | [] => (.notFoundAfterRestore, nudges)
      | _ :: _ => verifyFrom (i + 1) rest nudges

/-- One verification run over the polled states, beginning at retry 0
with no nudge issued yet. -/
def stateVerifier (observations : List DbState) : VerifyResult × Nat :=
  verifyFrom 0 observations 0

/-- Helper: from any non-zero retry counter on, the nudge count never
changes. -/
theorem verifyFrom_succ_nudges :
    ∀ (obs : List DbState) (j nudges : Nat),
      (verifyFrom (j + 1) obs nudges).2 = nudges := by
  intro obs
  induction obs with
  | nil => intro j nudges; rfl
  | cons st rest ih =>
    intro j nudges
    cases st with
    | online => rfl
    | restoring =>
      cases rest with
      | nil => rfl
      | cons r rs => exact ih (j + 1) nudges
    | other d => rfl
    | absent =>
      cases rest with
      | nil => rfl
      | cons r rs => exact ih (j + 1) nudges

/-- C9 counterexample. The claim asserts the verifier issues the explicit
recovery command exactly once, on the first poll at which it observes
Restoring; in this run Restoring is first observed on the second poll
(after a first poll with no row), the condition `i == 0` is already
false, and the run completes with zero recovery commands issued. -/
theorem verifier_no_nudge_when_restoring_seen_later :
    stateVerifier [DbState.absent, DbState.restoring, DbState.online]
      = (VerifyResult.ok, 0) ∧
    DbState.restoring ∈ [DbState.absent, DbState.restoring, DbState.online] :=
  ⟨rfl, by decide⟩

/-- C9 (amended): the verifier issues the explicit recovery command
exactly once per run when its very first poll observes Restoring, and
never otherwise — in particular never a second time, and not at all when
Restoring is first observed on a later poll. -/
theorem verifier_nudge_iff_first_poll_restoring (observations : List DbState) :
    (stateVerifier observations).2
      = if observations.head? = some DbState.restoring then 1 else 0 := by
  cases observations with
  | nil => rfl
  | cons st rest =>
    cases st with
    | online => rfl
    | restoring =>
      cases rest with
      | nil => rfl
      | cons r rs =>
        show (verifyFrom 1 (r :: rs) 1).2 = _
        rw [verifyFrom_succ_nudges]
        rfl
    | other d => rfl
    | absent =>
      cases rest with
      | nil => rfl
      | cons r rs =>
        show (verifyFrom 1 (r :: rs) 0).2 = _
        rw [verifyFrom_succ_nudges]
        rfl

/-- Lower-case one ASCII letter (Pythons `str.lower` on the logical file
names this script compares). -/
def lowerChar (c : Char) : Char :=
  if 65 ≤ c.toNat ∧ c.toNat ≤ 90 then Char.ofNat (c.toNat + 32) else c

/-- Lower-case a string character by character. -/
def lowerString (s : String) : String := ⟨s.data.map lowerChar⟩

/-- Lines 512-527 of `restore_database_from_file`: the relocation target
of one logical file when a restore path is given. Logical names
containing "log" (lower-cased) go to `restore_path\<database>_log.ldf`,
every other file to `restore_path\<database>.mdf`; the target depends
only on this name test, never on the individual file. -/
def fileMoveTarget (restorePath database logicalName : String) : String :=
  if strContains (lowerString logicalName) "log" then
    joinPath restorePath (database ++ "_log.ldf")
  else
    joinPath restorePath (database ++ ".mdf")

/-- The MOVE pair list built by `restore_database_from_file`
(lines 512-527): without a restore path each file keeps its physical
name. -/
def fileMoves (restorePath : Option String) (database : String)
    (rows : List FileEntry) : List (String × String) :=
  rows.map fun r =>
    (r.logicalName,
     match restorePath with
     | some rp => fileMoveTarget rp database r.logicalName
     | none => r.physicalName)

/-- C10: both relocation mappings are constant per kind. In the folder
driver every logical file of the same `Type` column value (in particular
every data file, and likewise every log file) is moved to one and the
same target path built from the database name; in the single-file driver
every logical file on the same side of the name heuristic (the
lower-cased name containing "log" — the discriminator the code uses for
data versus log files) is moved to one and the same target path. Hence
two or more distinct logical files of the same kind always collide on an
identical physical path: the relocation mapping is not injective. -/
theorem relocation_targets_constant_per_kind (restorePath database : String)
    (f g : FileEntry) (hfg : f.fileType = g.fileType)
    (r s : FileEntry)
    (hrs : strContains (lowerString r.logicalName) "log"
         = strContains (lowerString s.logicalName) "log") :
    folderMoveTarget restorePath database f = folderMoveTarget restorePath database g ∧
    fileMoveTarget restorePath database r.logicalName
      = fileMoveTarget restorePath database s.logicalName := by
  constructor
  · simp [folderMoveTarget, hfg]
  · simp only [fileMoveTarget, hrs]

/-- Concrete data file rows used in the C10 witness. -/
def dataF1 : FileEntry := ⟨"PRIMARY_01", "D:\\d1.ndf", "D"⟩

/-- Concrete second data file with a distinct logical name. -/
def dataF2 : FileEntry := ⟨"PRIMARY_02", "D:\\d2.ndf", "D"⟩

/-- C10 witness: two distinct data-kind logical files are relocated to
an identical target path by both drivers. -/
theorem relocation_targets_constant_per_kind_witness :
    (dataF1.fileType = dataF2.fileType ∧
      strContains (lowerString dataF1.logicalName) "log"
        = strContains (lowerString dataF2.logicalName) "log" ∧
      dataF1.logicalName ≠ dataF2.logicalName) ∧
    (folderMoveTarget "E:\\SQLData" "DB" dataF1
        = folderMoveTarget "E:\\SQLData" "DB" dataF2 ∧
      fileMoveTarget "E:\\SQLData" "DB" dataF1.logicalName
        = fileMoveTarget "E:\\SQLData" "DB" dataF2.logicalName) :=
  ⟨⟨rfl, by decide, by decide⟩,
   relocation_targets_constant_per_kind "E:\\SQLData" "DB" dataF1 dataF2 rfl
     dataF1 dataF2 (by decide)⟩

end RPB
